import Mathlib

/-!
Shallow embedding of the storage-folder addition core of the Sia contract
manager (src/modules/host/contractmanager/storagefolderadd.go), together with
theorems settling the specification claims about it.

Modelling conventions:
* Go machine integers (`uint64`, `uint16`) are modelled as `Nat`; the only
  overflow that matters is the `uint16` wraparound of the probe index, written
  explicitly as `% 65536`.
* Go maps (`map[uint16]*storageFolder`, `map[uint16]struct\x7b\x7d`) are
  modelled as association lists with unique keys (insert replaces, delete
  filters); iteration order of a Go map is unspecified, so theorems speak
  about membership, not order.
* Go `error` values are modelled as `List GoErr`, with `[]` standing for
  `nil`; `build.ComposeErrors` is list append and `build.ExtendErr` keeps the
  underlying error atoms (the added message string is dropped).
* The external collaborators (file system, entropy, WAL fsync) are consumed as
  capabilities (spec section 6); their success or failure is injected through
  an environment record, and the file system is the `files` field of the
  state: a map from file name to the number of bytes written so far.
-/

namespace Sia

/-- Error atoms standing for the distinct Go error values produced by the
storage-folder addition code. A Go `error` is a `List GoErr`, `[]` is `nil`. -/
inductive GoErr where
  | errRepeatFolder
  | errMaxStorageFolders
  | errLargeStorageFolder
  | errSmallStorageFolder
  | errStorageFolderGranularity
  | errRelativePath
  | errStatFailed
  | errStorageFolderNotFolder
  | errCreateFile
  | errWriteFailed
  | errSyncFailed
  | errAppendFailed
  | errRemoveFailed
  | errTgStopped
deriving DecidableEq

/-- `build.ComposeErrors`: combines two errors; `nil` (`[]`) is the identity. -/
def composeErrors (e1 e2 : List GoErr) : List GoErr := e1 ++ e2

/-- `build.ExtendErr`: prefixes a message onto a non-nil error. The message
string is abstracted away, so the underlying error atoms are kept unchanged. -/
def extendErr (e : List GoErr) : List GoErr := e

/-- Critical-severity log events (`wal.cm.log.Critical`). -/
inductive criticalEvent where
  | noEntropy
  | folderLocationsFull
deriving DecidableEq

/-- The `storageFolder` entity (fields as in the source; `Usage` words are the
64-sector bitmap words, all zero at creation; `file` is the backing-file
handle, modelled by the name of the file it refers to). -/
structure storageFolder where
  Path : String
  Usage : List Nat
  Index : Nat
  file : Option String
  atomicProgressNumerator : Nat
  atomicProgressDenominator : Nat
  failedReads : Nat
deriving DecidableEq

/-- The `stateChange` WAL record: a tagged-union-like record carrying zero or
more pending additions, committed additions and errored-addition indices. -/
structure stateChange where
  UnfinishedStorageFolderAdditions : List storageFolder
  StorageFolderAdditions : List storageFolder
  ErroredStorageFolderAdditions : List Nat
deriving DecidableEq

/-- The record appended for a pending (unfinished) addition. -/
def pendingRecord (sf : storageFolder) : stateChange := ⟨[sf], [], []⟩

/-- The record appended for a committed addition. -/
def committedRecord (sf : storageFolder) : stateChange := ⟨[], [sf], []⟩

/-- The record appended for an errored addition. -/
def erroredRecord (i : Nat) : stateChange := ⟨[], [], [i]⟩

/-- Indices of the pending additions carried by one record. -/
def pendIdx (sc : stateChange) : List Nat :=
  sc.UnfinishedStorageFolderAdditions.map (fun s => s.Index)

/-- Indices named by the committed-addition and errored-addition entries of one
record: these terminate an earlier pending addition of the same index. -/
def termIdx (sc : stateChange) : List Nat :=
  sc.StorageFolderAdditions.map (fun s => s.Index) ++ sc.ErroredStorageFolderAdditions

/-- Go-map insert on an association list: replaces any entry with the same key. -/
def mapInsert (m : List (Nat × storageFolder)) (i : Nat) (sf : storageFolder) :
    List (Nat × storageFolder) :=
  m.filter (fun p => decide (p.1 ≠ i)) ++ [(i, sf)]

/-- Go-map delete on an association list. -/
def mapDelete (m : List (Nat × storageFolder)) (i : Nat) : List (Nat × storageFolder) :=
  m.filter (fun p => decide (p.1 ≠ i))

/-- One step of the replay loop of `findUnfinishedStorageFolderAdditions`:
insert this record's unfinished additions into the working map, then delete
every index that this record commits or errors. -/
def applyStateChange (m : List (Nat × storageFolder)) (sc : stateChange) :
    List (Nat × storageFolder) :=
  let m1 := sc.UnfinishedStorageFolderAdditions.foldl (fun m sf => mapInsert m sf.Index sf) m
  let m2 := sc.StorageFolderAdditions.foldl (fun m sf => mapDelete m sf.Index) m1
  sc.ErroredStorageFolderAdditions.foldl (fun m i => mapDelete m i) m2

/-- `findUnfinishedStorageFolderAdditions`: replay a list of state changes,
keeping a working map keyed by index, and return the still-unfinished storage
folders. The Go function returns the map's values in unspecified order; the
model returns the association list itself. -/
def findUnfinishedStorageFolderAdditions (scs : List stateChange) :
    List (Nat × storageFolder) :=
  scs.foldl applyStateChange []

/-- Written from the spec text of claim C2, not from the source: the set of
pending-addition folders whose index is not named by any committed-addition or
errored-addition entry of a strictly later record. Used to compare the claim's
description with what the source computes. -/
def claimUnfinishedAdditions (scs : List stateChange) : List storageFolder :=
  (List.range scs.length).flatMap (fun j =>
    match scs[j]? with
    | none => []
    | some sc =>
        sc.UnfinishedStorageFolderAdditions.filter (fun sf =>
          (scs.drop (j + 1)).all (fun sc2 => decide (sf.Index ∉ termIdx sc2))))

/-- The mutable state touched by the addition protocol: the ContractManager
registry (`wal.cm.storageFolders`), the WAL's record sequence
(`wal.uncommittedChanges`, which `appendChange` extends), the file system
(name, bytes written so far), the trace of atomic progress-counter stores
(numerator, denominator after the store), and the critical-severity log. -/
structure walState where
  storageFolders : List (Nat × storageFolder)
  uncommittedChanges : List stateChange
  files : List (String × Nat)
  progressLog : List (Nat × Nat)
  criticals : List criticalEvent
deriving DecidableEq

/-- Failure injection for the external collaborators consumed by one
`AddStorageFolder` call: thread-group registration, `os.Stat`, entropy,
`createFile`, each `Write` (indexed by write number), `Sync`, the
`incompleteAddStorageFolder` disruption hook, each `appendChange` call site,
and `os.Remove`. -/
structure addEnv where
  tgOk : Bool
  statExists : Bool
  statIsDir : Bool
  rand : Nat
  randOk : Bool
  createOk : Bool
  writeOk : Nat → Bool
  syncOk : Bool
  disrupt : Bool
  appendPendingOk : Bool
  appendCommitOk : Bool
  appendErroredOk : Bool
  removeOk : Bool

/-- An environment in which every external operation succeeds, with the given
entropy draw and disruption flag. -/
def okEnv (rand : Nat) (dis : Bool) : addEnv where
  tgOk := true
  statExists := true
  statIsDir := true
  rand := rand
  randOk := true
  createOk := true
  writeOk := fun _ => true
  syncOk := true
  disrupt := dis
  appendPendingOk := true
  appendCommitOk := true
  appendErroredOk := true
  removeOk := true

/-- Modelled from the spec: the numeric constants of the contract manager
(`modules.SectorSize`, `sectorMetadataDiskSize`,
`minimumSectorsPerStorageFolder`, `maximumSectorsPerStorageFolder`,
`storageFolderGranularity`, `maximumStorageFolders`) are declared outside
src/, so they are carried as parameters. -/
structure consts where
  SectorSize : Nat
  sectorMetadataDiskSize : Nat
  minimumSectorsPerStorageFolder : Nat
  maximumSectorsPerStorageFolder : Nat
  storageFolderGranularity : Nat
  maximumStorageFolders : Nat

/-- The path separator. -/
def slash : String := "/"

/-- The path-separator character. -/
def slashChar : Char := '/'

/-- Modelled from the spec: `sectorFile`, the fixed name of the sector housing
file inside a storage folder, is a constant declared outside src/. -/
def sectorFile : String := "siahostdata.dat"

/-- `filepath.Join` for one directory and one file name. -/
def filepathJoin (dir nm : String) : String := dir ++ slash ++ nm

/-- `filepath.IsAbs` on a Unix path: the path starts with the separator. -/
def isAbs (p : String) : Bool :=
  match p.data with
  | [] => false
  | c :: _ => c == slashChar

/-- Set a file's byte count (file creation truncates: `createFile`). -/
def fileSet (fs : List (String × Nat)) (nm : String) (n : Nat) : List (String × Nat) :=
  fs.filter (fun p => decide (p.1 ≠ nm)) ++ [(nm, n)]

/-- Append `n` bytes to the named file (a successful `Write`). -/
def fileBump (fs : List (String × Nat)) (nm : String) (n : Nat) : List (String × Nat) :=
  fs.map (fun p => if p.1 = nm then (p.1, p.2 + n) else p)

/-- Delete the named file from the file system. -/
def fileRemove (fs : List (String × Nat)) (nm : String) : List (String × Nat) :=
  fs.filter (fun p => decide (p.1 ≠ nm))

/-- Modelled from the spec: `appendChange` (WAL append and group commit, spec
section 4.1) is declared outside src/. It durably appends one record to the
log and returns an error on I/O failure; a failed append appends nothing.
Failure is injected through `ok`. -/
def appendChange (ok : Bool) (w : walState) (sc : stateChange) : List GoErr × walState :=
  if ok then ([], { w with uncommittedChanges := w.uncommittedChanges ++ [sc] })
  else ([GoErr.errAppendFailed], w)

/-- `os.Remove`: fails when injected to fail or when the file does not exist;
on success the file is gone. -/
def removeFile (ok : Bool) (w : walState) (nm : String) : List GoErr × walState :=
  if ok then
    ((if (∃ p ∈ w.files, p.1 = nm) then [] else [GoErr.errRemoveFailed]),
      { w with files := fileRemove w.files nm })
  else ([GoErr.errRemoveFailed], w)

/-- Record one atomic store/add to the progress counters in the trace. -/
def storeProgress (w : walState) (pr : Nat × Nat) : walState :=
  { w with progressLog := w.progressLog ++ [pr] }

/-- The precomputed total on-disk size of a storage folder (source lines
57-60): `numSectors = len(Usage) * 64`, lookup plus housing bytes. -/
def addTotalSize (C : consts) (sf : storageFolder) : Nat :=
  sf.Usage.length * 64 * C.sectorMetadataDiskSize + sf.Usage.length * 64 * C.SectorSize

/-- The set (as a deduplicated list) of storage-folder indices in use across
the committed registry and the pending additions of the uncommitted changes
(source lines 98-112). -/
def uniqueFolderIndices (w : walState) : List Nat :=
  (w.storageFolders.map (fun p => p.2.Index) ++
    w.uncommittedChanges.flatMap
      (fun uc => uc.UnfinishedStorageFolderAdditions.map (fun u => u.Index))).dedup

/-- The linear-probe loop for a free index (source lines 128-135): starting at
`index`, advance with `uint16` wraparound until an index not in `used` is
found; `none` after the fuel (65536 probes) is exhausted. -/
def probeLoop (used : List Nat) (index : Nat) : Nat → Option Nat
  | 0 => none
  | Nat.succ n => if index ∈ used then probeLoop used ((index + 1) % 65536) n else some index

/-- The locked validation-and-assignment block of `managedAddStorageFolder`
(source lines 66-163): duplicate-path checks, capacity check, random-start
linear probe for a free index, file creation, denominator store, and the
append of the pending-addition record (whose error the source discards). -/
def managedAddValidate (C : consts) (env : addEnv) (w : walState) (sf : storageFolder)
    (t : Nat) (nm : String) : List GoErr × walState × storageFolder :=
  if ∃ p ∈ w.storageFolders, p.2.Path = sf.Path then ([GoErr.errRepeatFolder], w, sf)
  else if ∃ uc ∈ w.uncommittedChanges, ∃ u ∈ uc.UnfinishedStorageFolderAdditions,
      u.Path = sf.Path then ([GoErr.errRepeatFolder], w, sf)
  else if (uniqueFolderIndices w).length > C.maximumStorageFolders then
    ([GoErr.errMaxStorageFolders], w, sf)
  else
    let w0 := if env.randOk then w
      else { w with criticals := w.criticals ++ [criticalEvent.noEntropy] }
    match probeLoop (uniqueFolderIndices w) (env.rand % 65536) 65536 with
    | none =>
        ([GoErr.errMaxStorageFolders],
          { w0 with criticals := w0.criticals ++ [criticalEvent.folderLocationsFull] }, sf)
    | some index =>
        let sf1 := { sf with Index := index }
        if env.createOk then
          let sf2 := { sf1 with file := some nm }
          let w1 := { w0 with files := fileSet w0.files nm 0 }
          let sf3 := { sf2 with atomicProgressDenominator := t }
          let w2 := storeProgress w1 (sf3.atomicProgressNumerator, t)
          let w3 := (appendChange env.appendPendingOk w2 (pendingRecord sf3)).2
          ([], w3, sf3)
        else ([GoErr.errCreateFile], w0, sf1)

/-- The zero-fill chunk loop (source lines 197-204): writes chunks of 4e6
bytes, bumping the progress numerator atomically after each; a failed write
writes nothing and aborts the loop. `i` is the index of the next write, the
last argument the number of chunks still to write. -/
def chunkLoop (wOk : Nat → Bool) (nm : String) :
    Nat → Nat → walState → storageFolder → List GoErr × walState × storageFolder
  | _, 0, w, sf => ([], w, sf)
  | i, Nat.succ n, w, sf =>
    if wOk i then
      chunkLoop wOk nm (i + 1) n
        (storeProgress { w with files := fileBump w.files nm 4000000 }
          (sf.atomicProgressNumerator + 4000000, sf.atomicProgressDenominator))
        { sf with atomicProgressNumerator := sf.atomicProgressNumerator + 4000000 }
    else ([GoErr.errWriteFailed], w, sf)

/-- The list of (numerator, denominator) snapshots produced by `n` successful
chunk writes starting from numerator `base` with denominator `den`. -/
def progressSeq (base den : Nat) : Nat → List (Nat × Nat)
  | 0 => []
  | Nat.succ n => (base + 4000000, den) :: progressSeq (base + 4000000) den n

/-- The allocation phase (source lines 193-215): `totalSize / 4e6` full
chunks, one final write of `totalSize % 4e6` bytes (which does not bump the
numerator), a `Sync`, and then the store of `totalSize` into the
denominator -- the source stores into `atomicProgressDenominator` here even
though its comment says "report complete progress". -/
def allocatePhase (env : addEnv) (nm : String) (t : Nat) (w : walState)
    (sf : storageFolder) : List GoErr × walState × storageFolder :=
  match chunkLoop env.writeOk nm 0 (t / 4000000) w sf with
  | ([], w1, sf1) =>
    if env.writeOk (t / 4000000) then
      let w2 := { w1 with files := fileBump w1.files nm (t % 4000000) }
      if env.syncOk then
        let sf2 := { sf1 with atomicProgressDenominator := t }
        let w3 := storeProgress w2 (sf2.atomicProgressNumerator, t)
        ([], w3, sf2)
      else ([GoErr.errSyncFailed], w2, sf1)
    else ([GoErr.errWriteFailed], w1, sf1)
  | (e, w1, sf1) => (e, w1, sf1)

/-- The deferred rollback (source lines 176-187): append an errored-addition
record naming the folder's index and delete the backing file, composing any
errors onto the local `err` variable. Because `managedAddStorageFolder` has an
unnamed return value, the composed error it produces never reaches the caller;
the first component below is that dead-store composition. -/
def rollbackAdd (env : addEnv) (w : walState) (sf : storageFolder) (nm : String)
    (e : List GoErr) : List GoErr × walState :=
  let r1 := appendChange env.appendErroredOk w (erroredRecord sf.Index)
  let r2 := removeFile env.removeOk r1.2 nm
  (composeErrors (composeErrors e r1.1) r2.1, r2.2)

/-- The finalizing locked block (source lines 229-248): zero both progress
counters (two atomic stores), install the folder into the registry, and append
the committed-addition record. -/
def finalizePhase (env : addEnv) (w : walState) (sf : storageFolder) :
    List GoErr × walState × storageFolder :=
  let sf1 := { sf with atomicProgressNumerator := 0 }
  let w1 := storeProgress w (0, sf.atomicProgressDenominator)
  let sf2 := { sf1 with atomicProgressDenominator := 0 }
  let w2 := storeProgress w1 (0, 0)
  let w3 := { w2 with storageFolders := mapInsert w2.storageFolders sf2.Index sf2 }
  match appendChange env.appendCommitOk w3 (committedRecord sf2) with
  | ([], w4) => ([], w4, sf2)
  | (e, w4) => (extendErr e, w4, sf2)

/-- `managedAddStorageFolder` (source lines 52-257). Validation and
assignment under the lock, then the unlocked allocation, the disruption hook,
and the finalizing block. On a failure after the pending record is in the WAL
the deferred rollback runs against the state, but -- the return value being
unnamed -- the error composed inside the deferred function is discarded and
the caller sees only the error captured at the `return` statement. -/
def managedAddStorageFolder (C : consts) (env : addEnv) (w : walState)
    (sf : storageFolder) : List GoErr × walState × storageFolder :=
  let t := addTotalSize C sf
  let nm := filepathJoin sf.Path sectorFile
  match managedAddValidate C env w sf t nm with
  | ([], w1, sf1) =>
    (match allocatePhase env nm t w1 sf1 with
    | ([], w2, sf2) =>
      if env.disrupt then ([], w2, sf2)
      else
        match finalizePhase env w2 sf2 with
        | ([], w3, sf3) => ([], w3, sf3)
        | (e, w3, sf3) => (e, (rollbackAdd env w3 sf3 nm e).2, sf3)
    | (e, w2, sf2) => (extendErr e, (rollbackAdd env w2 sf2 nm (extendErr e)).2, sf2))
  | (e, w1, sf1) => (e, w1, sf1)

/-- The per-folder body of `cleanupUnfinishedStorageFolderAdditions` (source
lines 267-286), iterating over the unfinished folders: remove the sector
housing file (failure only logged), then append an errored-addition record
(failure extends and returns immediately). `k` numbers the folders for
failure injection. -/
def cleanupList (removeOk appendOk : Nat → Bool) (k : Nat) (w : walState) :
    List (Nat × storageFolder) → List GoErr × walState
  | [] => ([], w)
  | p :: rest =>
    let nm := filepathJoin p.2.Path sectorFile
    let r1 := removeFile (removeOk k) w nm
    match appendChange (appendOk k) r1.2 (erroredRecord p.2.Index) with
    | ([], w2) => cleanupList removeOk appendOk (k + 1) w2 rest
    | (e, w2) => (extendErr e, w2)

/-- `cleanupUnfinishedStorageFolderAdditions` (source lines 262-288). -/
def cleanupUnfinishedStorageFolderAdditions (removeOk appendOk : Nat → Bool)
    (w : walState) (scs : List stateChange) : List GoErr × walState :=
  cleanupList removeOk appendOk 0 w (findUnfinishedStorageFolderAdditions scs)

/-- `commitAddStorageFolder` (source lines 292-300): reopen the backing file;
on failure increment `failedReads` and log; either way install the folder into
the registry. The function is total: recovery never aborts here. -/
def commitAddStorageFolder (reopenOk : Bool) (w : walState) (sf : storageFolder) :
    walState :=
  let sf1 := if reopenOk then { sf with file := some (filepathJoin sf.Path sectorFile) }
    else { sf with file := none, failedReads := sf.failedReads + 1 }
  { w with storageFolders := mapInsert w.storageFolders sf1.Index sf1 }

/-- `ContractManager.AddStorageFolder` (source lines 303-346): thread-group
registration, size and path validation, directory probe, construction of the
new `storageFolder` with a zeroed usage bitmap, and delegation to
`managedAddStorageFolder`. -/
def AddStorageFolder (C : consts) (env : addEnv) (w : walState) (path : String)
    (size : Nat) : List GoErr × walState :=
  if !env.tgOk then ([GoErr.errTgStopped], w)
  else
    let sectors := size / C.SectorSize
    if sectors > C.maximumSectorsPerStorageFolder then ([GoErr.errLargeStorageFolder], w)
    else if sectors < C.minimumSectorsPerStorageFolder then ([GoErr.errSmallStorageFolder], w)
    else if size / C.SectorSize % C.storageFolderGranularity ≠ 0 then
      ([GoErr.errStorageFolderGranularity], w)
    else if !isAbs path then ([GoErr.errRelativePath], w)
    else if !env.statExists then ([GoErr.errStatFailed], w)
    else if !env.statIsDir then ([GoErr.errStorageFolderNotFolder], w)
    else
      let newSF : storageFolder := ⟨path, List.replicate (size / C.SectorSize / 64) 0,
        0, none, 0, 0, 0⟩
      let r := managedAddStorageFolder C env w newSF
      (r.1, r.2.1)

/-! Concrete inputs used by counterexamples and witnesses. -/

/-- A tiny but well-formed configuration (sector size 2, metadata size 1,
granularity 64, at most 8 folders). -/
def cSmall : consts := ⟨2, 1, 1, 1000000, 64, 8⟩

/-- The tiny configuration with the maximum folder count set to 1. -/
def cMaxOne : consts := ⟨2, 1, 1, 1000000, 64, 1⟩

/-- The production-like configuration: 4 MiB sectors, 14 metadata bytes per
sector, 64-sector minimum and granularity. -/
def cReal : consts := ⟨4194304, 14, 64, 4294967296, 64, 65536⟩

/-- The empty contract-manager state. -/
def emptyState : walState := ⟨[], [], [], [], []⟩

/-- A committed folder occupying index 5. -/
def folderA : storageFolder := ⟨"/a", [0], 5, none, 0, 0, 0⟩

/-- A state whose registry holds exactly `folderA`. -/
def stateA : walState := ⟨[(5, folderA)], [], [], [], []⟩

/-- A fresh one-word folder at path `/b`. -/
def sfB : storageFolder := ⟨"/b", [0], 0, none, 0, 0, 0⟩

/-- A fresh folder whose path collides with `folderA`. -/
def sfDupA : storageFolder := ⟨"/a", [0], 0, none, 0, 0, 0⟩

/-- A fresh one-word folder at path `/r` (64 sectors under `cReal`). -/
def sfR : storageFolder := ⟨"/r", [0], 0, none, 0, 0, 0⟩

/-- The folder used by the C2 counterexample. -/
def sfC2 : storageFolder := ⟨"/c2", [], 0, none, 0, 0, 0⟩

/-- One record that both pends and commits the same index. -/
def scsC2 : List stateChange := [⟨[sfC2], [sfC2], []⟩]

/-- Environment for the rollback counterexample: every `Write` fails, the
rollback's errored-record append fails, the rollback's file delete succeeds. -/
def envC7 : addEnv :=
  { okEnv 0 false with writeOk := fun _ => false, appendErroredOk := false }

/-- Three unfinished folders for the cleanup witness. -/
def fU0 : storageFolder := ⟨"/u0", [0], 0, none, 0, 0, 0⟩

/-- Second unfinished folder for the cleanup witness. -/
def fU1 : storageFolder := ⟨"/u1", [0], 1, none, 0, 0, 0⟩

/-- Third unfinished folder for the cleanup witness. -/
def fU2 : storageFolder := ⟨"/u2", [0], 2, none, 0, 0, 0⟩

/-- A log with three still-unfinished additions. -/
def scsU : List stateChange := [⟨[fU0, fU1, fU2], [], []⟩]

/-- A state whose file system holds the three corresponding backing files. -/
def stateU : walState :=
  ⟨[], [], [(filepathJoin (fU0.Path) sectorFile, 5), (filepathJoin (fU1.Path) sectorFile, 5),
    (filepathJoin (fU2.Path) sectorFile, 5)], [], []⟩

/-- Append outcomes for the cleanup witness: only the first append succeeds. -/
def aokU : Nat → Bool := fun k => decide (k < 1)

/-- Index `i` has a pending-addition record in `scs` that no record at the
same or a later position terminates (commits or errors). -/
def unfinishedAt (scs : List stateChange) (i : Nat) : Prop :=
  ∃ pre sc post, scs = pre ++ sc :: post ∧ i ∈ pendIdx sc ∧ i ∉ termIdx sc ∧
    ∀ sc2 ∈ post, i ∉ termIdx sc2

/-! ### Helper lemmas about the association-list operations -/

theorem mem_mapInsert {m : List (Nat × storageFolder)} {i j : Nat}
    {sf t : storageFolder} :
    (j, t) ∈ mapInsert m i sf ↔ ((j, t) ∈ m ∧ j ≠ i) ∨ (j = i ∧ t = sf) := by
  simp [mapInsert, List.mem_filter, Prod.ext_iff]

theorem mem_mapDelete {m : List (Nat × storageFolder)} {i j : Nat} {t : storageFolder} :
    (j, t) ∈ mapDelete m i ↔ (j, t) ∈ m ∧ j ≠ i := by
  simp [mapDelete, List.mem_filter]

theorem hasKey_insertFold (l : List storageFolder) (m : List (Nat × storageFolder))
    (i : Nat) :
    (∃ t, (i, t) ∈ l.foldl (fun m sf => mapInsert m sf.Index sf) m) ↔
      i ∈ l.map (fun s => s.Index) ∨ ∃ t, (i, t) ∈ m := by
  induction l generalizing m with
  | nil => simp
  | cons a l ih =>
    rw [List.foldl_cons, ih]
    have hstep : (∃ t, (i, t) ∈ mapInsert m a.Index a) ↔ i = a.Index ∨ ∃ t, (i, t) ∈ m := by
      constructor
      · rintro ⟨t, ht⟩
        rcases mem_mapInsert.mp ht with ⟨hm, _⟩ | ⟨rfl, _⟩
        · exact Or.inr ⟨t, hm⟩
        · exact Or.inl rfl
      · rintro (rfl | ⟨t, ht⟩)
        · exact ⟨a, mem_mapInsert.mpr (Or.inr ⟨rfl, rfl⟩)⟩
        · by_cases hia : i = a.Index
          · exact ⟨a, mem_mapInsert.mpr (Or.inr ⟨hia, rfl⟩)⟩
          · exact ⟨t, mem_mapInsert.mpr (Or.inl ⟨ht, hia⟩)⟩
    rw [hstep]
    simp only [List.map_cons, List.mem_cons]
    tauto

theorem hasKey_deleteFold (l : List Nat) (m : List (Nat × storageFolder)) (i : Nat) :
    (∃ t, (i, t) ∈ l.foldl mapDelete m) ↔ (∃ t, (i, t) ∈ m) ∧ i ∉ l := by
  induction l generalizing m with
  | nil => simp
  | cons a l ih =>
    rw [List.foldl_cons, ih]
    have hstep : (∃ t, (i, t) ∈ mapDelete m a) ↔ (∃ t, (i, t) ∈ m) ∧ i ≠ a := by
      constructor
      · rintro ⟨t, ht⟩
        rcases mem_mapDelete.mp ht with ⟨hm, hne⟩
        exact ⟨⟨t, hm⟩, hne⟩
      · rintro ⟨⟨t, ht⟩, hne⟩
        exact ⟨t, mem_mapDelete.mpr ⟨ht, hne⟩⟩
    rw [hstep]
    simp only [List.mem_cons]
    tauto

theorem hasKey_applyStateChange (m : List (Nat × storageFolder)) (sc : stateChange)
    (i : Nat) :
    (∃ t, (i, t) ∈ applyStateChange m sc) ↔
      ((i ∈ pendIdx sc ∨ ∃ t, (i, t) ∈ m) ∧ i ∉ termIdx sc) := by
  have hfold : ∀ (l : List storageFolder) (m0 : List (Nat × storageFolder)),
      l.foldl (fun m sf => mapDelete m sf.Index) m0 =
        (l.map (fun s => s.Index)).foldl mapDelete m0 := by
    intro l m0
    rw [List.foldl_map]
  simp only [applyStateChange]
  rw [hfold, hasKey_deleteFold, hasKey_deleteFold, hasKey_insertFold]
  unfold pendIdx termIdx
  simp only [List.mem_append]
  tauto

theorem unfinishedAt_cons (a : stateChange) (rest : List stateChange) (i : Nat) :
    unfinishedAt (a :: rest) i ↔
      (i ∈ pendIdx a ∧ i ∉ termIdx a ∧ ∀ sc2 ∈ rest, i ∉ termIdx sc2) ∨
        unfinishedAt rest i := by
  constructor
  · rintro ⟨pre, sc, post, heq, h1, h2, h3⟩
    cases pre with
    | nil =>
      rw [List.nil_append] at heq
      obtain ⟨rfl, rfl⟩ := List.cons.inj heq
      exact Or.inl ⟨h1, h2, h3⟩
    | cons b pre =>
      rw [List.cons_append] at heq
      obtain ⟨rfl, heq2⟩ := List.cons.inj heq
      exact Or.inr ⟨pre, sc, post, heq2, h1, h2, h3⟩
  · rintro (⟨h1, h2, h3⟩ | ⟨pre, sc, post, heq, h1, h2, h3⟩)
    · exact ⟨[], a, rest, rfl, h1, h2, h3⟩
    · refine ⟨a :: pre, sc, post, ?_, h1, h2, h3⟩
      rw [heq, List.cons_append]

theorem hasKey_foldl_applyStateChange (scs : List stateChange)
    (m : List (Nat × storageFolder)) (i : Nat) :
    (∃ t, (i, t) ∈ scs.foldl applyStateChange m) ↔
      (unfinishedAt scs i ∨
        ((∃ t, (i, t) ∈ m) ∧ ∀ sc2 ∈ scs, i ∉ termIdx sc2)) := by
  induction scs generalizing m with
  | nil =>
    simp only [List.foldl_nil, unfinishedAt]
    simp
  | cons a rest ih =>
    rw [List.foldl_cons, ih, hasKey_applyStateChange, unfinishedAt_cons]
    simp only [List.mem_cons, forall_eq_or_imp]
    tauto

theorem mem_deleteFold_sub (l : List Nat) (m : List (Nat × storageFolder)) (i : Nat)
    (t : storageFolder) : (i, t) ∈ l.foldl mapDelete m → (i, t) ∈ m := by
  induction l generalizing m with
  | nil => exact fun h => h
  | cons a l ih =>
    intro h
    exact (mem_mapDelete.mp (ih _ h)).1

theorem mem_insertFold_src (l : List storageFolder) (m : List (Nat × storageFolder))
    (i : Nat) (t : storageFolder) :
    (i, t) ∈ l.foldl (fun m sf => mapInsert m sf.Index sf) m →
      (i, t) ∈ m ∨ (t.Index = i ∧ t ∈ l) := by
  induction l generalizing m with
  | nil => exact fun h => Or.inl h
  | cons a l ih =>
    intro h
    rcases ih _ h with h | ⟨hi, hl⟩
    · rcases mem_mapInsert.mp h with ⟨hm, _⟩ | ⟨rfl, rfl⟩
      · exact Or.inl hm
      · exact Or.inr ⟨rfl, List.mem_cons_self _ _⟩
    · exact Or.inr ⟨hi, List.mem_cons_of_mem _ hl⟩

theorem mem_foldl_applyStateChange_src (scs : List stateChange)
    (m : List (Nat × storageFolder)) (i : Nat) (t : storageFolder) :
    (i, t) ∈ scs.foldl applyStateChange m →
      (i, t) ∈ m ∨ (t.Index = i ∧ ∃ sc ∈ scs, t ∈ sc.UnfinishedStorageFolderAdditions) := by
  induction scs generalizing m with
  | nil => exact fun h => Or.inl h
  | cons a rest ih =>
    intro h
    rcases ih _ h with h | ⟨hi, sc, hsc, ht⟩
    · unfold applyStateChange at h
      have h2 := mem_deleteFold_sub _ _ _ _ h
      have h3 := mem_deleteFold_sub
        (a.StorageFolderAdditions.map (fun s => s.Index)) _ _ _ (by rwa [List.foldl_map])
      rcases mem_insertFold_src _ _ _ _ h3 with h4 | ⟨hi, hl⟩
      · exact Or.inl h4
      · exact Or.inr ⟨hi, a, List.mem_cons_self _ _, hl⟩
    · exact Or.inr ⟨hi, sc, List.mem_cons_of_mem _ hsc, ht⟩

theorem keys_nodup_mapInsert (m : List (Nat × storageFolder)) (i : Nat)
    (sf : storageFolder) (h : (m.map Prod.fst).Nodup) :
    ((mapInsert m i sf).map Prod.fst).Nodup := by
  unfold mapInsert
  rw [List.map_append]
  refine List.Nodup.append ?_ (by simp) ?_
  · exact List.Nodup.sublist (List.Sublist.map _ (List.filter_sublist m)) h
  · intro a ha hb
    rw [List.mem_map] at ha
    obtain ⟨p, hp, hpa⟩ := ha
    have hne := (List.mem_filter.mp hp).2
    rw [decide_eq_true_eq] at hne
    rw [List.map_singleton, List.mem_singleton] at hb
    exact hne (by rw [hpa, hb])

theorem keys_nodup_mapDelete (m : List (Nat × storageFolder)) (i : Nat)
    (h : (m.map Prod.fst).Nodup) : ((mapDelete m i).map Prod.fst).Nodup :=
  List.Nodup.sublist (List.Sublist.map _ (List.filter_sublist m)) h

theorem keys_nodup_insertFold (l : List storageFolder) :
    ∀ m : List (Nat × storageFolder), (m.map Prod.fst).Nodup →
      ((l.foldl (fun m sf => mapInsert m sf.Index sf) m).map Prod.fst).Nodup := by
  induction l with
  | nil => exact fun m h => h
  | cons a l ih =>
    intro m h
    exact ih _ (keys_nodup_mapInsert m a.Index a h)

theorem keys_nodup_deleteFoldSF (l : List storageFolder) :
    ∀ m : List (Nat × storageFolder), (m.map Prod.fst).Nodup →
      ((l.foldl (fun m sf => mapDelete m sf.Index) m).map Prod.fst).Nodup := by
  induction l with
  | nil => exact fun m h => h
  | cons a l ih =>
    intro m h
    exact ih _ (keys_nodup_mapDelete m a.Index h)

theorem keys_nodup_deleteFold (l : List Nat) :
    ∀ m : List (Nat × storageFolder), (m.map Prod.fst).Nodup →
      ((l.foldl mapDelete m).map Prod.fst).Nodup := by
  induction l with
  | nil => exact fun m h => h
  | cons a l ih =>
    intro m h
    exact ih _ (keys_nodup_mapDelete m a h)

theorem keys_nodup_applyStateChange (m : List (Nat × storageFolder)) (sc : stateChange)
    (h : (m.map Prod.fst).Nodup) :
    ((applyStateChange m sc).map Prod.fst).Nodup := by
  simp only [applyStateChange]
  exact keys_nodup_deleteFold _ _ (keys_nodup_deleteFoldSF _ _
    (keys_nodup_insertFold _ _ h))

theorem keys_nodup_findUnfinished (scs : List stateChange) :
    ((findUnfinishedStorageFolderAdditions scs).map Prod.fst).Nodup := by
  have hgen : ∀ (l : List stateChange) (m : List (Nat × storageFolder)),
      (m.map Prod.fst).Nodup → ((l.foldl applyStateChange m).map Prod.fst).Nodup := by
    intro l
    induction l with
    | nil => exact fun m h => h
    | cons a l ih =>
      intro m h
      exact ih _ (keys_nodup_applyStateChange m a h)
  exact hgen scs [] (by simp)

/-! ### Claim C2 -/

/-- C2 (amended): replaying the state changes is a left fold; an index `i` is
in the returned set exactly when some record pends `i` and no record at the
same or a later position commits or errors `i` (the source deletes an index
committed or errored by the *same* record, because within one record the
pending insertions are processed before the terminations); the returned list
carries at most one folder per index, and every returned folder descriptor is
drawn from a pending-addition entry with that index. -/
theorem findUnfinished_correct (scs : List stateChange) (i : Nat) :
    ((∃ t, (i, t) ∈ findUnfinishedStorageFolderAdditions scs) ↔ unfinishedAt scs i) ∧
    ((findUnfinishedStorageFolderAdditions scs).map Prod.fst).Nodup ∧
    (∀ t, (i, t) ∈ findUnfinishedStorageFolderAdditions scs →
      t.Index = i ∧ ∃ sc ∈ scs, t ∈ sc.UnfinishedStorageFolderAdditions) := by
  refine ⟨?_, keys_nodup_findUnfinished scs, ?_⟩
  · rw [findUnfinishedStorageFolderAdditions, hasKey_foldl_applyStateChange]
    simp
  · intro t ht
    rcases mem_foldl_applyStateChange_src scs [] i t ht with h | h
    · simp at h
    · exact h

/-- C2 counterexample: a single record that both pends and commits index 0.
The source returns nothing for it, while the claim's description ("cancelled
only by a *later* committed or errored record") keeps the pending folder. -/
theorem findUnfinished_sameRecord_cex :
    findUnfinishedStorageFolderAdditions scsC2 = [] ∧
    claimUnfinishedAdditions scsC2 = [sfC2] := by
  constructor
  · rfl
  · rfl

/-! ### Claim C6: the index probe -/

theorem probeLoop_finds (used : List Nat) :
    ∀ (n index : Nat), index < 65536 →
      (∃ k, k < n ∧ (index + k) % 65536 ∉ used) →
      ∃ r, probeLoop used index n = some r ∧ r ∉ used := by
  intro n
  induction n with
  | zero =>
    rintro index _ ⟨k, hk, _⟩
    exact absurd hk (Nat.not_lt_zero k)
  | succ n ih =>
    rintro index hidx ⟨k, hkn, hkfree⟩
    by_cases hmem : index ∈ used
    · have hk0 : k ≠ 0 := by
        rintro rfl
        rw [Nat.add_zero, Nat.mod_eq_of_lt hidx] at hkfree
        exact hkfree hmem
      obtain ⟨k', rfl⟩ : ∃ k', k = k' + 1 := ⟨k - 1, by omega⟩
      rw [probeLoop, if_pos hmem]
      apply ih ((index + 1) % 65536) (Nat.mod_lt _ (by norm_num))
      refine ⟨k', by omega, ?_⟩
      rwa [Nat.mod_add_mod, show index + 1 + k' = index + (k' + 1) by omega]
    · exact ⟨index, by rw [probeLoop, if_neg hmem], hmem⟩

theorem probeLoop_all_used (used : List Nat) (h : ∀ j, j < 65536 → j ∈ used) :
    ∀ (n index : Nat), index < 65536 → probeLoop used index n = none := by
  intro n
  induction n with
  | zero => intro index _; rfl
  | succ n ih =>
    intro index hidx
    rw [probeLoop, if_pos (h index hidx)]
    exact ih _ (Nat.mod_lt _ (by norm_num))

theorem probe_cover (index : Nat) (hidx : index < 65536) :
    ∀ j, j < 65536 → ∃ k, k < 65536 ∧ (index + k) % 65536 = j := by
  intro j hj
  by_cases h : index ≤ j
  · exact ⟨j - index, by omega, by rw [Nat.add_sub_cancel' h, Nat.mod_eq_of_lt hj]⟩
  · refine ⟨65536 + j - index, by omega, ?_⟩
    rw [show index + (65536 + j - index) = 65536 + j by omega, Nat.add_mod_left,
      Nat.mod_eq_of_lt hj]

theorem appendChange_snd_criticals (ok : Bool) (w : walState) (sc : stateChange) :
    (appendChange ok w sc).2.criticals = w.criticals := by
  cases ok <;> rfl

theorem appendChange_snd_storageFolders (ok : Bool) (w : walState) (sc : stateChange) :
    (appendChange ok w sc).2.storageFolders = w.storageFolders := by
  cases ok <;> rfl

theorem appendChange_snd_files (ok : Bool) (w : walState) (sc : stateChange) :
    (appendChange ok w sc).2.files = w.files := by
  cases ok <;> rfl

theorem appendChange_snd_progressLog (ok : Bool) (w : walState) (sc : stateChange) :
    (appendChange ok w sc).2.progressLog = w.progressLog := by
  cases ok <;> rfl

theorem appendChange_true (w : walState) (sc : stateChange) :
    appendChange true w sc =
      ([], { w with uncommittedChanges := w.uncommittedChanges ++ [sc] }) := rfl

theorem removeFile_true_snd (w : walState) (nm : String) :
    (removeFile true w nm).2 = { w with files := fileRemove w.files nm } := rfl

/-- C6: index assignment linearly probes from the random start with `uint16`
wraparound; whenever at least one of the 65536 indices is free the probe
returns an index distinct from every committed and every pending folder's
index; the probe returns nothing exactly when all 65536 indices are in use,
and (given that the duplicate and capacity checks passed) the validation block
logs the critical folderLocationsFull event exactly in that exhausted case. -/
theorem indexAssignment_correct (w : walState) (start : Nat) (hstart : start < 65536) :
    ((∃ j, j < 65536 ∧ j ∉ uniqueFolderIndices w) →
      ∃ r, probeLoop (uniqueFolderIndices w) start 65536 = some r ∧
        r ∉ uniqueFolderIndices w ∧
        (∀ p ∈ w.storageFolders, p.2.Index ≠ r) ∧
        (∀ uc ∈ w.uncommittedChanges, ∀ u ∈ uc.UnfinishedStorageFolderAdditions,
          u.Index ≠ r)) ∧
    (probeLoop (uniqueFolderIndices w) start 65536 = none ↔
      ∀ j, j < 65536 → j ∈ uniqueFolderIndices w) ∧
    (∀ (C : consts) (env : addEnv) (sf : storageFolder) (t : Nat) (nm : String),
      (¬ ∃ p ∈ w.storageFolders, p.2.Path = sf.Path) →
      (¬ ∃ uc ∈ w.uncommittedChanges, ∃ u ∈ uc.UnfinishedStorageFolderAdditions,
        u.Path = sf.Path) →
      ¬ (uniqueFolderIndices w).length > C.maximumStorageFolders →
      (managedAddValidate C env w sf t nm).2.1.criticals =
        w.criticals ++ (if env.randOk then [] else [criticalEvent.noEntropy]) ++
          (if probeLoop (uniqueFolderIndices w) (env.rand % 65536) 65536 = none then
            [criticalEvent.folderLocationsFull] else [])) := by
  have hmemidx : ∀ r, r ∉ uniqueFolderIndices w →
      (∀ p ∈ w.storageFolders, p.2.Index ≠ r) ∧
      (∀ uc ∈ w.uncommittedChanges, ∀ u ∈ uc.UnfinishedStorageFolderAdditions,
        u.Index ≠ r) := by
    intro r hr
    constructor
    · intro p hp hidx
      exact hr (by
        unfold uniqueFolderIndices
        rw [List.mem_dedup, List.mem_append]
        exact Or.inl (List.mem_map.mpr ⟨p, hp, hidx⟩))
    · intro uc huc u hu hidx
      exact hr (by
        unfold uniqueFolderIndices
        rw [List.mem_dedup, List.mem_append]
        exact Or.inr (List.mem_flatMap.mpr ⟨uc, huc, List.mem_map.mpr ⟨u, hu, hidx⟩⟩))
  refine ⟨?_, ?_, ?_⟩
  · rintro ⟨j, hj, hfree⟩
    obtain ⟨k, hk, hkj⟩ := probe_cover start hstart j hj
    obtain ⟨r, hrp, hrf⟩ := probeLoop_finds (uniqueFolderIndices w) 65536 start hstart
      ⟨k, hk, by rw [hkj]; exact hfree⟩
    exact ⟨r, hrp, hrf, (hmemidx r hrf).1, (hmemidx r hrf).2⟩
  · constructor
    · intro hnone
      by_contra hall
      push_neg at hall
      obtain ⟨j, hj, hfree⟩ := hall
      obtain ⟨k, hk, hkj⟩ := probe_cover start hstart j hj
      obtain ⟨r, hrp, _⟩ := probeLoop_finds (uniqueFolderIndices w) 65536 start hstart
        ⟨k, hk, by rw [hkj]; exact hfree⟩
      rw [hnone] at hrp
      exact Option.noConfusion hrp
    · intro hall
      exact probeLoop_all_used (uniqueFolderIndices w) hall 65536 start hstart
  · intro C env sf t nm h1 h2 h3
    unfold managedAddValidate
    rw [if_neg h1, if_neg h2, if_neg h3]
    rcases hp : probeLoop (uniqueFolderIndices w) (env.rand % 65536) 65536 with _ | r
    · by_cases hr : env.randOk <;> simp [hp, hr]
    · by_cases hr : env.randOk <;> by_cases hc : env.createOk <;>
        simp [hp, hr, hc, appendChange_snd_criticals, storeProgress]

/-- Witness for C6 at the one-folder state (index 5 in use, start 3): the
probe finds a free index distinct from every registered and pending index. -/
theorem indexAssignment_correct_witness :
    ∃ r, probeLoop (uniqueFolderIndices stateA) 3 65536 = some r ∧
      r ∉ uniqueFolderIndices stateA ∧
      (∀ p ∈ stateA.storageFolders, p.2.Index ≠ r) ∧
      (∀ uc ∈ stateA.uncommittedChanges, ∀ u ∈ uc.UnfinishedStorageFolderAdditions,
        u.Index ≠ r) :=
  (indexAssignment_correct stateA 3 (by decide)).1 ⟨0, by decide, by decide⟩

/-! ### Claim C8 -/

/-- C8: when the backing-file reopen fails while replaying a
committed-addition record, `commitAddStorageFolder` increments the folder's
`failedReads` counter and still installs the folder into the registry at its
index; the function is total and returns no error, so a reopen failure never
aborts startup. -/
theorem commitAdd_reopenFailure_installs (w : walState) (sf : storageFolder) :
    commitAddStorageFolder false w sf =
      { w with
        storageFolders :=
          mapInsert w.storageFolders sf.Index
            { sf with file := none, failedReads := sf.failedReads + 1 } } ∧
    (sf.Index, { sf with file := none, failedReads := sf.failedReads + 1 }) ∈
      (commitAddStorageFolder false w sf).storageFolders := by
  refine ⟨rfl, ?_⟩
  simp [commitAddStorageFolder, mapInsert]

/-! ### Claim C5 -/

/-- C5: when the requested path equals the path of a committed folder or of a
folder referenced by a pending-addition record of the uncommitted log,
`managedAddStorageFolder` returns the duplicate-folder error and leaves the
state (registry, log, file system, progress trace) completely unchanged. -/
theorem duplicatePath_rejected (C : consts) (env : addEnv) (w : walState)
    (sf : storageFolder)
    (h : (∃ p ∈ w.storageFolders, p.2.Path = sf.Path) ∨
      (∃ uc ∈ w.uncommittedChanges, ∃ u ∈ uc.UnfinishedStorageFolderAdditions,
        u.Path = sf.Path)) :
    managedAddStorageFolder C env w sf = ([GoErr.errRepeatFolder], w, sf) := by
  have hv : managedAddValidate C env w sf (addTotalSize C sf)
      (filepathJoin sf.Path sectorFile) = ([GoErr.errRepeatFolder], w, sf) := by
    unfold managedAddValidate
    rcases h with h | h
    · rw [if_pos h]
    · by_cases h1 : ∃ p ∈ w.storageFolders, p.2.Path = sf.Path
      · rw [if_pos h1]
      · rw [if_neg h1, if_pos h]
  simp only [managedAddStorageFolder]
  rw [hv]

/-- Witness for C5: adding a folder at `/a` while `/a` is already committed is
rejected with `errRepeatFolder` and does not change the state. -/
theorem duplicatePath_rejected_witness :
    managedAddStorageFolder cSmall (okEnv 0 false) stateA sfDupA =
      ([GoErr.errRepeatFolder], stateA, sfDupA) :=
  duplicatePath_rejected cSmall (okEnv 0 false) stateA sfDupA (Or.inl (by decide))

/-! ### The successful allocation path -/

theorem fileBump_zero (fs : List (String × Nat)) (nm : String) :
    fileBump fs nm 0 = fs := by
  induction fs with
  | nil => rfl
  | cons p l ih =>
    obtain ⟨pn, pv⟩ := p
    simp only [fileBump, List.map_cons] at ih ⊢
    rw [ih]
    by_cases h : pn = nm
    · simp [h]
    · simp [h]

theorem fileBump_fileBump (nm : String) (a b : Nat) (fs : List (String × Nat)) :
    fileBump (fileBump fs nm a) nm b = fileBump fs nm (a + b) := by
  induction fs with
  | nil => rfl
  | cons p l ih =>
    obtain ⟨pn, pv⟩ := p
    simp only [fileBump, List.map_cons] at ih ⊢
    rw [ih]
    by_cases h : pn = nm
    · simp [h, Nat.add_assoc]
    · simp [h]

theorem fileBump_fileSet_mem (fs : List (String × Nat)) (nm : String) (t : Nat) :
    (nm, t) ∈ fileBump (fileSet fs nm 0) nm t := by
  unfold fileSet fileBump
  rw [List.map_append]
  apply List.mem_append_right
  simp

theorem not_mem_uniqueFolderIndices (w : walState) (r : Nat)
    (hr : r ∉ uniqueFolderIndices w) :
    (∀ p ∈ w.storageFolders, p.2.Index ≠ r) ∧
    (∀ uc ∈ w.uncommittedChanges, ∀ u ∈ uc.UnfinishedStorageFolderAdditions,
      u.Index ≠ r) := by
  constructor
  · intro p hp hidx
    exact hr (by
      unfold uniqueFolderIndices
      rw [List.mem_dedup, List.mem_append]
      exact Or.inl (List.mem_map.mpr ⟨p, hp, hidx⟩))
  · intro uc huc u hu hidx
    exact hr (by
      unfold uniqueFolderIndices
      rw [List.mem_dedup, List.mem_append]
      exact Or.inr (List.mem_flatMap.mpr ⟨uc, huc, List.mem_map.mpr ⟨u, hu, hidx⟩⟩))

theorem chunkLoop_allOk (nm : String) :
    ∀ (n i : Nat) (w : walState) (sf : storageFolder),
      chunkLoop (fun _ => true) nm i n w sf =
        ([], ⟨w.storageFolders, w.uncommittedChanges, fileBump w.files nm (n * 4000000),
          w.progressLog ++ progressSeq sf.atomicProgressNumerator
            sf.atomicProgressDenominator n, w.criticals⟩,
          ⟨sf.Path, sf.Usage, sf.Index, sf.file,
            sf.atomicProgressNumerator + n * 4000000, sf.atomicProgressDenominator,
            sf.failedReads⟩) := by
  intro n
  induction n with
  | zero =>
    intro i w sf
    simp [chunkLoop, progressSeq, fileBump_zero]
  | succ n ih =>
    intro i w sf
    rw [chunkLoop, if_pos (show ((fun (_ : Nat) => true) i) = true from rfl), ih]
    simp only [storeProgress, progressSeq]
    rw [fileBump_fileBump,
      show (4000000 : Nat) + n * 4000000 = (n + 1) * 4000000 by ring,
      show sf.atomicProgressNumerator + 4000000 + n * 4000000 =
        sf.atomicProgressNumerator + (n + 1) * 4000000 by ring]
    simp [List.append_assoc]

theorem managedAddValidate_okEnv (C : consts) (rand : Nat) (dis : Bool) (w : walState)
    (sf : storageFolder) (t : Nat) (nm : String) (r : Nat)
    (h1 : ¬ ∃ p ∈ w.storageFolders, p.2.Path = sf.Path)
    (h2 : ¬ ∃ uc ∈ w.uncommittedChanges, ∃ u ∈ uc.UnfinishedStorageFolderAdditions,
      u.Path = sf.Path)
    (h3 : ¬ (uniqueFolderIndices w).length > C.maximumStorageFolders)
    (hp : probeLoop (uniqueFolderIndices w) (rand % 65536) 65536 = some r) :
    managedAddValidate C (okEnv rand dis) w sf t nm =
      ([], ⟨w.storageFolders,
        w.uncommittedChanges ++ [pendingRecord ⟨sf.Path, sf.Usage, r, some nm,
          sf.atomicProgressNumerator, t, sf.failedReads⟩],
        fileSet w.files nm 0,
        w.progressLog ++ [(sf.atomicProgressNumerator, t)],
        w.criticals⟩,
        ⟨sf.Path, sf.Usage, r, some nm, sf.atomicProgressNumerator, t,
          sf.failedReads⟩) := by
  unfold managedAddValidate
  rw [if_neg h1, if_neg h2, if_neg h3]
  simp only [okEnv]
  rw [hp]
  simp [appendChange, storeProgress]

theorem allocatePhase_okEnv (rand : Nat) (dis : Bool) (nm : String) (t : Nat)
    (w : walState) (sf : storageFolder) :
    allocatePhase (okEnv rand dis) nm t w sf =
      ([], ⟨w.storageFolders, w.uncommittedChanges,
        fileBump w.files nm t,
        w.progressLog ++ progressSeq sf.atomicProgressNumerator
          sf.atomicProgressDenominator (t / 4000000) ++
          [(sf.atomicProgressNumerator + t / 4000000 * 4000000, t)],
        w.criticals⟩,
        ⟨sf.Path, sf.Usage, sf.Index, sf.file,
          sf.atomicProgressNumerator + t / 4000000 * 4000000, t,
          sf.failedReads⟩) := by
  unfold allocatePhase
  simp only [okEnv]
  rw [chunkLoop_allOk]
  simp only [storeProgress]
  rw [fileBump_fileBump, show t / 4000000 * 4000000 + t % 4000000 = t by omega]
  simp [List.append_assoc]

theorem finalizePhase_okEnv (rand : Nat) (dis : Bool) (w : walState)
    (sf : storageFolder) :
    finalizePhase (okEnv rand dis) w sf =
      ([], ⟨mapInsert w.storageFolders sf.Index
          ⟨sf.Path, sf.Usage, sf.Index, sf.file, 0, 0, sf.failedReads⟩,
        w.uncommittedChanges ++ [committedRecord
          ⟨sf.Path, sf.Usage, sf.Index, sf.file, 0, 0, sf.failedReads⟩],
        w.files,
        w.progressLog ++ [(0, sf.atomicProgressDenominator), (0, 0)],
        w.criticals⟩,
        ⟨sf.Path, sf.Usage, sf.Index, sf.file, 0, 0, sf.failedReads⟩) := by
  unfold finalizePhase
  simp only [okEnv]
  simp [appendChange, storeProgress]

theorem probe_free_found (w : walState) (rand : Nat)
    (hfree : ∃ j, j < 65536 ∧ j ∉ uniqueFolderIndices w) :
    ∃ r, probeLoop (uniqueFolderIndices w) (rand % 65536) 65536 = some r ∧
      r ∉ uniqueFolderIndices w := by
  obtain ⟨j, hj, hjf⟩ := hfree
  have hlt : rand % 65536 < 65536 := Nat.mod_lt _ (by norm_num)
  obtain ⟨k, hk, hkj⟩ := probe_cover (rand % 65536) hlt j hj
  exact probeLoop_finds (uniqueFolderIndices w) 65536 (rand % 65536) hlt
    ⟨k, hk, by rw [hkj]; exact hjf⟩

theorem managedAdd_okEnv (C : consts) (rand : Nat) (w : walState) (sf : storageFolder)
    (r : Nat)
    (h1 : ¬ ∃ p ∈ w.storageFolders, p.2.Path = sf.Path)
    (h2 : ¬ ∃ uc ∈ w.uncommittedChanges, ∃ u ∈ uc.UnfinishedStorageFolderAdditions,
      u.Path = sf.Path)
    (h3 : ¬ (uniqueFolderIndices w).length > C.maximumStorageFolders)
    (hp : probeLoop (uniqueFolderIndices w) (rand % 65536) 65536 = some r) :
    managedAddStorageFolder C (okEnv rand false) w sf =
      ([], ⟨mapInsert w.storageFolders r
          ⟨sf.Path, sf.Usage, r, some (filepathJoin sf.Path sectorFile), 0, 0,
            sf.failedReads⟩,
        w.uncommittedChanges ++
          [pendingRecord ⟨sf.Path, sf.Usage, r, some (filepathJoin sf.Path sectorFile),
            sf.atomicProgressNumerator, addTotalSize C sf, sf.failedReads⟩,
          committedRecord ⟨sf.Path, sf.Usage, r, some (filepathJoin sf.Path sectorFile),
            0, 0, sf.failedReads⟩],
        fileBump (fileSet w.files (filepathJoin sf.Path sectorFile) 0)
          (filepathJoin sf.Path sectorFile) (addTotalSize C sf),
        w.progressLog ++
          [(sf.atomicProgressNumerator, addTotalSize C sf)] ++
          progressSeq sf.atomicProgressNumerator (addTotalSize C sf)
            (addTotalSize C sf / 4000000) ++
          [(sf.atomicProgressNumerator + addTotalSize C sf / 4000000 * 4000000,
            addTotalSize C sf), (0, addTotalSize C sf), (0, 0)],
        w.criticals⟩,
        ⟨sf.Path, sf.Usage, r, some (filepathJoin sf.Path sectorFile), 0, 0,
          sf.failedReads⟩) := by
  have hv := managedAddValidate_okEnv C rand false w sf (addTotalSize C sf)
    (filepathJoin sf.Path sectorFile) r h1 h2 h3 hp
  simp only [managedAddStorageFolder]
  rw [hv]
  dsimp only
  rw [allocatePhase_okEnv]
  dsimp only
  rw [show (okEnv rand false).disrupt = false from rfl, if_neg Bool.false_ne_true,
    finalizePhase_okEnv]
  dsimp only
  simp [List.append_assoc]

theorem managedAdd_okEnv_disrupt (C : consts) (rand : Nat) (w : walState)
    (sf : storageFolder) (r : Nat)
    (h1 : ¬ ∃ p ∈ w.storageFolders, p.2.Path = sf.Path)
    (h2 : ¬ ∃ uc ∈ w.uncommittedChanges, ∃ u ∈ uc.UnfinishedStorageFolderAdditions,
      u.Path = sf.Path)
    (h3 : ¬ (uniqueFolderIndices w).length > C.maximumStorageFolders)
    (hp : probeLoop (uniqueFolderIndices w) (rand % 65536) 65536 = some r) :
    managedAddStorageFolder C (okEnv rand true) w sf =
      ([], ⟨w.storageFolders,
        w.uncommittedChanges ++
          [pendingRecord ⟨sf.Path, sf.Usage, r, some (filepathJoin sf.Path sectorFile),
            sf.atomicProgressNumerator, addTotalSize C sf, sf.failedReads⟩],
        fileBump (fileSet w.files (filepathJoin sf.Path sectorFile) 0)
          (filepathJoin sf.Path sectorFile) (addTotalSize C sf),
        w.progressLog ++
          [(sf.atomicProgressNumerator, addTotalSize C sf)] ++
          progressSeq sf.atomicProgressNumerator (addTotalSize C sf)
            (addTotalSize C sf / 4000000) ++
          [(sf.atomicProgressNumerator + addTotalSize C sf / 4000000 * 4000000,
            addTotalSize C sf)],
        w.criticals⟩,
        ⟨sf.Path, sf.Usage, r, some (filepathJoin sf.Path sectorFile),
          sf.atomicProgressNumerator + addTotalSize C sf / 4000000 * 4000000,
          addTotalSize C sf, sf.failedReads⟩) := by
  have hv := managedAddValidate_okEnv C rand true w sf (addTotalSize C sf)
    (filepathJoin sf.Path sectorFile) r h1 h2 h3 hp
  simp only [managedAddStorageFolder]
  rw [hv]
  dsimp only
  rw [allocatePhase_okEnv]
  dsimp only
  rw [show (okEnv rand true).disrupt = true from rfl, if_pos rfl]

/-! ### Claim C1 -/

/-- C1: under the claim's validity conditions (sector count within bounds and
a multiple of the granularity, absolute existing-directory path, path not
already registered or pending, capacity available and some index free) and
with every external operation succeeding, `AddStorageFolder` returns no error,
the new folder is present in the registry with an all-zero usage bitmap of
length sectorCount/64 and an index distinct from every committed and pending
folder's index, and the backing file holds exactly
sectorCount * (sectorDataSize + sectorMetadataSize) bytes. -/
theorem addStorageFolder_success (C : consts) (w : walState) (path : String)
    (size rand : Nat)
    (hg64 : 64 ∣ C.storageFolderGranularity)
    (hmin : C.minimumSectorsPerStorageFolder ≤ size / C.SectorSize)
    (hmax : size / C.SectorSize ≤ C.maximumSectorsPerStorageFolder)
    (hgran : size / C.SectorSize % C.storageFolderGranularity = 0)
    (habs : isAbs path = true)
    (hnodup1 : ∀ p ∈ w.storageFolders, p.2.Path ≠ path)
    (hnodup2 : ∀ uc ∈ w.uncommittedChanges,
      ∀ u ∈ uc.UnfinishedStorageFolderAdditions, u.Path ≠ path)
    (hcap : (uniqueFolderIndices w).length ≤ C.maximumStorageFolders)
    (hfree : ∃ j, j < 65536 ∧ j ∉ uniqueFolderIndices w) :
    ∃ r sfF,
      (AddStorageFolder C (okEnv rand false) w path size).1 = [] ∧
      (r, sfF) ∈ (AddStorageFolder C (okEnv rand false) w path size).2.storageFolders ∧
      sfF.Path = path ∧
      sfF.Usage = List.replicate (size / C.SectorSize / 64) 0 ∧
      r ∉ uniqueFolderIndices w ∧
      (∀ p ∈ w.storageFolders, p.2.Index ≠ r) ∧
      (∀ uc ∈ w.uncommittedChanges,
        ∀ u ∈ uc.UnfinishedStorageFolderAdditions, u.Index ≠ r) ∧
      (filepathJoin path sectorFile,
        size / C.SectorSize * (C.SectorSize + C.sectorMetadataDiskSize)) ∈
        (AddStorageFolder C (okEnv rand false) w path size).2.files := by
  obtain ⟨r, hp, hrf⟩ := probe_free_found w rand hfree
  have h1 : ¬ ∃ p ∈ w.storageFolders,
      p.2.Path = (⟨path, List.replicate (size / C.SectorSize / 64) 0, 0, none, 0, 0, 0⟩ :
        storageFolder).Path := by
    rintro ⟨p, hpm, hpe⟩
    exact hnodup1 p hpm hpe
  have h2 : ¬ ∃ uc ∈ w.uncommittedChanges,
      ∃ u ∈ uc.UnfinishedStorageFolderAdditions,
        u.Path = (⟨path, List.replicate (size / C.SectorSize / 64) 0, 0, none, 0, 0, 0⟩ :
          storageFolder).Path := by
    rintro ⟨uc, hum, u, hu, hue⟩
    exact hnodup2 uc hum u hu hue
  have h3 : ¬ (uniqueFolderIndices w).length > C.maximumStorageFolders := by omega
  have hm := managedAdd_okEnv C rand w
    ⟨path, List.replicate (size / C.SectorSize / 64) 0, 0, none, 0, 0, 0⟩ r h1 h2 h3 hp
  have ht : addTotalSize C
      ⟨path, List.replicate (size / C.SectorSize / 64) 0, 0, none, 0, 0, 0⟩ =
      size / C.SectorSize * (C.SectorSize + C.sectorMetadataDiskSize) := by
    unfold addTotalSize
    simp only [List.length_replicate]
    have h64 : 64 ∣ size / C.SectorSize :=
      dvd_trans hg64 (Nat.dvd_of_mod_eq_zero hgran)
    rw [Nat.div_mul_cancel h64]
    ring
  have hA : AddStorageFolder C (okEnv rand false) w path size =
      ((managedAddStorageFolder C (okEnv rand false) w
        ⟨path, List.replicate (size / C.SectorSize / 64) 0, 0, none, 0, 0, 0⟩).1,
      (managedAddStorageFolder C (okEnv rand false) w
        ⟨path, List.replicate (size / C.SectorSize / 64) 0, 0, none, 0, 0, 0⟩).2.1) := by
    simp [AddStorageFolder, okEnv, habs, hgran, Nat.not_lt.mpr hmax, Nat.not_lt.mpr hmin]
  refine ⟨r, ⟨path, List.replicate (size / C.SectorSize / 64) 0, r,
    some (filepathJoin path sectorFile), 0, 0, 0⟩, ?_, ?_, rfl, rfl, hrf,
    (not_mem_uniqueFolderIndices w r hrf).1,
    (not_mem_uniqueFolderIndices w r hrf).2, ?_⟩
  · rw [hA, hm]
  · rw [hA]
    dsimp only
    rw [hm]
    dsimp only
    exact mem_mapInsert.mpr (Or.inr ⟨rfl, rfl⟩)
  · rw [hA]
    dsimp only
    rw [hm]
    dsimp only
    rw [← ht]
    exact fileBump_fileSet_mem w.files (filepathJoin path sectorFile) _

/-- Witness for C1: the empty state, path `/z`, size 128 with 2-byte sectors
(64 sectors, the granularity), entropy draw 0. -/
theorem addStorageFolder_success_witness :
    ∃ r sfF,
      (AddStorageFolder cSmall (okEnv 0 false) emptyState ("/z") 128).1 = [] ∧
      (r, sfF) ∈
        (AddStorageFolder cSmall (okEnv 0 false) emptyState ("/z") 128).2.storageFolders ∧
      sfF.Path = ("/z") ∧
      sfF.Usage = List.replicate (128 / cSmall.SectorSize / 64) 0 ∧
      r ∉ uniqueFolderIndices emptyState ∧
      (∀ p ∈ emptyState.storageFolders, p.2.Index ≠ r) ∧
      (∀ uc ∈ emptyState.uncommittedChanges,
        ∀ u ∈ uc.UnfinishedStorageFolderAdditions, u.Index ≠ r) ∧
      (filepathJoin ("/z") sectorFile,
        128 / cSmall.SectorSize * (cSmall.SectorSize + cSmall.sectorMetadataDiskSize)) ∈
        (AddStorageFolder cSmall (okEnv 0 false) emptyState ("/z") 128).2.files :=
  addStorageFolder_success cSmall emptyState ("/z") 128 0 (by decide) (by decide)
    (by decide) (by decide) (by decide) (by decide) (by decide) (by decide)
    ⟨0, by decide, by decide⟩

/-! ### Claim C10 -/

/-- C10: when the incompleteAddStorageFolder disruption hook fires after
allocation completes, `managedAddStorageFolder` returns nil (no error) even
though the folder has not been inserted into the registry, no
committed-addition record has been appended (the uncommitted log gains only
the pending record), and the progress counters have not been reset (the
denominator still holds the nonzero total size). -/
theorem disrupt_reportsSuccess_incomplete (C : consts) (w : walState)
    (sf : storageFolder) (rand : Nat)
    (hss : 0 < C.SectorSize)
    (hus : sf.Usage ≠ [])
    (hnodup1 : ∀ p ∈ w.storageFolders, p.2.Path ≠ sf.Path)
    (hnodup2 : ∀ uc ∈ w.uncommittedChanges,
      ∀ u ∈ uc.UnfinishedStorageFolderAdditions, u.Path ≠ sf.Path)
    (hcap : (uniqueFolderIndices w).length ≤ C.maximumStorageFolders)
    (hfree : ∃ j, j < 65536 ∧ j ∉ uniqueFolderIndices w) :
    ∃ r,
      (managedAddStorageFolder C (okEnv rand true) w sf).1 = [] ∧
      (managedAddStorageFolder C (okEnv rand true) w sf).2.1.storageFolders =
        w.storageFolders ∧
      (managedAddStorageFolder C (okEnv rand true) w sf).2.1.uncommittedChanges =
        w.uncommittedChanges ++
          [pendingRecord ⟨sf.Path, sf.Usage, r, some (filepathJoin sf.Path sectorFile),
            sf.atomicProgressNumerator, addTotalSize C sf, sf.failedReads⟩] ∧
      (managedAddStorageFolder C (okEnv rand true) w sf).2.2.atomicProgressDenominator =
        addTotalSize C sf ∧
      addTotalSize C sf ≠ 0 := by
  obtain ⟨r, hp, hrf⟩ := probe_free_found w rand hfree
  have h1 : ¬ ∃ p ∈ w.storageFolders, p.2.Path = sf.Path := by
    rintro ⟨p, hpm, hpe⟩
    exact hnodup1 p hpm hpe
  have h2 : ¬ ∃ uc ∈ w.uncommittedChanges,
      ∃ u ∈ uc.UnfinishedStorageFolderAdditions, u.Path = sf.Path := by
    rintro ⟨uc, hum, u, hu, hue⟩
    exact hnodup2 uc hum u hu hue
  have h3 : ¬ (uniqueFolderIndices w).length > C.maximumStorageFolders := by omega
  have hm := managedAdd_okEnv_disrupt C rand w sf r h1 h2 h3 hp
  have hpos : addTotalSize C sf ≠ 0 := by
    unfold addTotalSize
    have hlen : 0 < sf.Usage.length := List.length_pos.mpr hus
    have hhouse : 0 < sf.Usage.length * 64 * C.SectorSize :=
      Nat.mul_pos (Nat.mul_pos hlen (by norm_num)) hss
    omega
  exact ⟨r, by rw [hm], by rw [hm], by rw [hm], by rw [hm], hpos⟩

/-- Witness for C10: the tiny configuration, empty state, folder `/b`. -/
theorem disrupt_reportsSuccess_incomplete_witness :
    ∃ r,
      (managedAddStorageFolder cSmall (okEnv 0 true) emptyState sfB).1 = [] ∧
      (managedAddStorageFolder cSmall (okEnv 0 true) emptyState sfB).2.1.storageFolders =
        emptyState.storageFolders ∧
      (managedAddStorageFolder cSmall (okEnv 0 true) emptyState sfB).2.1.uncommittedChanges =
        emptyState.uncommittedChanges ++
          [pendingRecord ⟨sfB.Path, sfB.Usage, r, some (filepathJoin sfB.Path sectorFile),
            sfB.atomicProgressNumerator, addTotalSize cSmall sfB, sfB.failedReads⟩] ∧
      (managedAddStorageFolder cSmall (okEnv 0 true) emptyState sfB).2.2.atomicProgressDenominator =
        addTotalSize cSmall sfB ∧
      addTotalSize cSmall sfB ≠ 0 :=
  disrupt_reportsSuccess_incomplete cSmall emptyState sfB 0 (by decide) (by decide)
    (by decide) (by decide) (by decide) ⟨0, by decide, by decide⟩

/-! ### Claim C9 -/

theorem appendChange_false (w : walState) (sc : stateChange) :
    appendChange false w sc = ([GoErr.errAppendFailed], w) := rfl

theorem cleanupList_stops (appendOk : Nat → Bool) :
    ∀ (pre : List (Nat × storageFolder)) (k : Nat) (w : walState)
      (p : Nat × storageFolder) (rest : List (Nat × storageFolder)),
      (∀ j, j < pre.length → appendOk (k + j) = true) →
      appendOk (k + pre.length) = false →
      cleanupList (fun _ => true) appendOk k w (pre ++ p :: rest) =
        ([GoErr.errAppendFailed],
          ⟨w.storageFolders,
            w.uncommittedChanges ++ pre.map (fun q => erroredRecord q.2.Index),
            ((pre ++ [p]).map (fun q => filepathJoin q.2.Path sectorFile)).foldl
              fileRemove w.files,
            w.progressLog, w.criticals⟩) := by
  intro pre
  induction pre with
  | nil =>
    intro k w p rest hok hfail
    simp only [List.length_nil, Nat.add_zero] at hfail
    rw [List.nil_append]
    simp only [cleanupList]
    rw [removeFile_true_snd, hfail, appendChange_false]
    dsimp only
    simp [extendErr]
  | cons q pre ih =>
    intro k w p rest hok hfail
    have h0 : appendOk k = true := by
      have := hok 0 (by simp)
      simpa using this
    rw [List.cons_append]
    simp only [cleanupList]
    rw [removeFile_true_snd, h0, appendChange_true]
    dsimp only
    rw [ih (k + 1) _ p rest ?hok2 ?hfail2]
    case hok2 =>
      intro j hj
      rw [show k + 1 + j = k + (j + 1) by omega]
      exact hok (j + 1) (by simpa using Nat.succ_lt_succ hj)
    case hfail2 =>
      rw [show k + 1 + pre.length = k + (q :: pre).length by simp; omega]
      exact hfail
    simp [List.append_assoc]

/-- C9: if, during startup cleanup of the unfinished additions, the append of
an errored-addition record fails at some folder, the cleanup returns that
error immediately: errored records exist only for the folders processed
before the failure, files were deleted only for those folders and the failing
one, and the remaining folders in the set are untouched. -/
theorem cleanup_stopsOnAppendFailure (scs : List stateChange) (w : walState)
    (pre : List (Nat × storageFolder)) (p : Nat × storageFolder)
    (rest : List (Nat × storageFolder)) (appendOk : Nat → Bool)
    (hfind : findUnfinishedStorageFolderAdditions scs = pre ++ p :: rest)
    (hok : ∀ j, j < pre.length → appendOk j = true)
    (hfail : appendOk pre.length = false) :
    cleanupUnfinishedStorageFolderAdditions (fun _ => true) appendOk w scs =
      ([GoErr.errAppendFailed],
        ⟨w.storageFolders,
          w.uncommittedChanges ++ pre.map (fun q => erroredRecord q.2.Index),
          ((pre ++ [p]).map (fun q => filepathJoin q.2.Path sectorFile)).foldl
            fileRemove w.files,
          w.progressLog, w.criticals⟩) := by
  unfold cleanupUnfinishedStorageFolderAdditions
  rw [hfind]
  exact cleanupList_stops appendOk pre 0 w p rest (by simpa using hok)
    (by simpa using hfail)

/-- Witness for C9: three unfinished folders; the second append fails, so only
the first folder gets an errored record, the first two backing files are
gone, and the third folder's file and record are untouched. -/
theorem cleanup_stopsOnAppendFailure_witness :
    cleanupUnfinishedStorageFolderAdditions (fun _ => true) aokU stateU scsU =
      ([GoErr.errAppendFailed],
        ⟨[], [erroredRecord 0], [(filepathJoin (fU2.Path) sectorFile, 5)], [], []⟩) :=
  (cleanup_stopsOnAppendFailure scsU stateU [(0, fU0)] (1, fU1) [(2, fU2)] aokU
    (by decide)
    (by
      intro j hj
      have hj0 : j = 0 := by simpa using hj
      subst hj0
      decide)
    (by decide)).trans (by decide)

/-! ### Claim C3 -/

/-- C3 (code bug): with the configured maximum folder count 1 and exactly one
committed folder (so the count equals the maximum), the capacity check
`len(uniqueFolders) > maximumStorageFolders` does not fire: the add proceeds,
succeeds, and leaves the registry with two distinct indices -- one more than
the configured maximum -- contradicting the claim (and the source's own
comment that the count ensures the maximum is not exceeded). -/
theorem capacityCheck_offByOne :
    (managedAddStorageFolder cMaxOne (okEnv 0 false) stateA sfB).1 = [] ∧
    (managedAddStorageFolder cMaxOne (okEnv 0 false) stateA sfB).1 ≠
      [GoErr.errMaxStorageFolders] ∧
    ((managedAddStorageFolder cMaxOne (okEnv 0 false) stateA sfB).2.1.storageFolders.map
      (fun p => p.2.Index)).dedup.length = 2 ∧
    cMaxOne.maximumStorageFolders = 1 ∧
    (uniqueFolderIndices stateA).length = 1 := by
  refine ⟨?_, ?_, ?_, rfl, ?_⟩ <;> decide

/-! ### Claim C4 -/

/-- C4 (code bug): on the production-like configuration a one-word folder
(64 sectors) has total size 268436352, which is not a multiple of the 4e6
chunk size, so after the final write and the sync the numerator holds only
268000000 while the store at source line 215 writes the total size into the
*denominator* (entry 68 of the trace) -- the numerator never equals the
denominator, contradicting the claim's completion equality; the trace is
otherwise monotone, bounded by the denominator, and ends with the two zero
stores of the finalizing step. -/
theorem progressNumerator_gap :
    (managedAddStorageFolder cReal (okEnv 0 false) emptyState sfR).1 = [] ∧
    (managedAddStorageFolder cReal (okEnv 0 false) emptyState sfR).2.1.progressLog.length
      = 71 ∧
    (managedAddStorageFolder cReal (okEnv 0 false) emptyState
      sfR).2.1.progressLog[68]? = some (268000000, 268436352) ∧
    (268000000 : Nat) ≠ 268436352 ∧
    (managedAddStorageFolder cReal (okEnv 0 false) emptyState
      sfR).2.1.progressLog[69]? = some (0, 268436352) ∧
    (managedAddStorageFolder cReal (okEnv 0 false) emptyState
      sfR).2.1.progressLog[70]? = some (0, 0) ∧
    ((((managedAddStorageFolder cReal (okEnv 0 false) emptyState
      sfR).2.1.progressLog).take 69).zip
        ((((managedAddStorageFolder cReal (okEnv 0 false) emptyState
          sfR).2.1.progressLog).take 69).tail)).all
      (fun ab => decide (ab.1.1 ≤ ab.2.1)) = true ∧
    (∀ pr ∈ (managedAddStorageFolder cReal (okEnv 0 false) emptyState
      sfR).2.1.progressLog, pr.1 ≤ 268436352) := by
  refine ⟨?_, ?_, ?_, ?_, ?_, ?_, ?_, ?_⟩ <;> decide

/-! ### Claim C7 -/

/-- C7 (code bug): when the allocation write fails and, during the deferred
rollback, the errored-record append also fails (while the file delete
succeeds), the caller receives only the original write error: the composed
error built inside the deferred function is assigned to the local `err`
variable of a function whose return value is unnamed, so the append failure
never reaches the caller, contradicting the claim that no rollback error is
discarded. The rollback attempts are made: the backing file is gone and --
its append having failed -- no errored record was added. -/
theorem rollbackError_discarded :
    (managedAddStorageFolder cSmall envC7 emptyState sfB).1 = [GoErr.errWriteFailed] ∧
    GoErr.errAppendFailed ∉ (managedAddStorageFolder cSmall envC7 emptyState sfB).1 ∧
    (managedAddStorageFolder cSmall envC7 emptyState sfB).2.1.files = [] ∧
    (managedAddStorageFolder cSmall envC7 emptyState sfB).2.1.uncommittedChanges =
      [pendingRecord ⟨sfB.Path, sfB.Usage, 0, some (filepathJoin (sfB.Path) sectorFile),
        0, 192, 0⟩] := by
  refine ⟨?_, ?_, ?_, ?_⟩ <;> decide

end Sia
